import Mathlib

set_option maxHeartbeats 1000000

namespace BonicChat

/-! # Shallow embedding of the bonic-chat orchestration layer

Two HTTP handlers are modelled: the lesson upsert handler
(`src/unnamed/part_001`, route `/api/upsert-lesson`) and the chat handler
(`src/api/chat/route.ts`).  External collaborators (OpenAI embeddings,
Pinecone vector store, LangChain agent executor) are passed in as function
parameters returning `Except`, mirroring `await` calls that may throw. -/

/-- A JavaScript-like metadata value (strings, numbers, booleans suffice for
the claims about metadata merging). -/
inductive MVal where
  | str : String → MVal
  | num : Int → MVal
  | boolean : Bool → MVal
deriving DecidableEq, Repr

/-- A JavaScript object modelled as an ordered list of key/value assignments;
later assignments shadow earlier ones, as in object-literal spread. -/
abbrev JsObj : Type := List (String × MVal)

/-- Property read `o[k]`: the value of the LAST assignment of key `k`
(later keys in an object literal override earlier ones). -/
def objGet (o : JsObj) (k : String) : Option MVal :=
  (o.reverse.find? (fun p => p.1 = k)).map (fun p => p.2)

/-- The `id` field of an upsert request: `string | number` in the source. -/
inductive IdVal where
  | str : String → IdVal
  | num : Int → IdVal
deriving DecidableEq, Repr

/-- JavaScript truthiness of an `id` value (`""` and `0` are falsy). -/
def idTruthy : IdVal → Bool
  | .str s => !s.isEmpty
  | .num n => n != 0

/-- JavaScript truthiness of an optional `id` (`undefined` is falsy). -/
def optIdTruthy : Option IdVal → Bool
  | none => false
  | some v => idTruthy v

/-- Models `const lessonId = lessonData.id || uuidv4();` (part_001 line 78):
the supplied id when it is truthy, otherwise the freshly generated uuid. -/
def lessonId (reqId : Option IdVal) (fresh : String) : IdVal :=
  match reqId with
  | none => .str fresh
  | some v => if idTruthy v then v else .str fresh

/-- Models the coercion `typeof lessonId === number ? lessonId.toString() :
lessonId` (part_001 line 81): numeric ids are converted to decimal strings. -/
def stringId : IdVal → String
  | .str s => s
  | .num n => toString n

/-- JavaScript `\s` whitespace class, restricted to the ASCII whitespace
characters (space, tab, newline, carriage return, vertical tab, form feed). -/
def isJsWhitespace (c : Char) : Bool :=
  c = ' ' || c = '\t' || c = '\n' || c = '\r' || c = '\x0b' || c = '\x0c'

/-- One pass of the whitespace-collapsing replace of part_001 line 34.
`prevWs` records whether the previous original character was whitespace.
A maximal run of two or more whitespace characters contributes a single
space (emitted at the run start, whose successor is also whitespace;
continuation characters, whose predecessor is whitespace, are dropped);
a lone whitespace character is not matched by the regex and is kept
unchanged. -/
def collapseWsAux (prevWs : Bool) : List Char → List Char
  | [] => []
  | c :: cs =>
    if isJsWhitespace c then
      if prevWs then
        collapseWsAux true cs
      else
        match cs with
        | [] => [c]
        | c2 :: _ =>
          if isJsWhitespace c2 then ' ' :: collapseWsAux true cs
          else c :: collapseWsAux true cs
    else
      c :: collapseWsAux false cs

/-- Models the regex replace of part_001 line 34: each maximal run of
two or more whitespace characters becomes a single space. -/
def collapseWs (l : List Char) : List Char :=
  collapseWsAux false l

/-- Models `.trim()`: strip leading and trailing whitespace. -/
def trimWs (l : List Char) : List Char :=
  ((l.dropWhile isJsWhitespace).reverse.dropWhile isJsWhitespace).reverse

/-- Models the cleaning `text.replace(..).trim()` of part_001 line 34:
collapse whitespace runs, then trim. -/
def cleanText (s : String) : String :=
  String.mk (trimWs (collapseWs s.data))

/-- An embedding vector (`number[]`); the float values are opaque to the
orchestration layer, modelled as integers. -/
abbrev Embedding : Type := List Int

/-- Result of running `getEmbedding` (part_001 lines 32-48): the `Except`
outcome together with whether the external embeddings API was actually
called (`openaiClient.embeddings.create`). -/
def getEmbedding (embedApi : String → Except String Embedding) (text : String) :
    Except String Embedding × Bool :=
  let cleanedText := cleanText text
  if cleanedText = "" then
    (.error "Cannot generate embedding for empty text.", false)
  else
    match embedApi cleanedText with
    | .ok e => (.ok e, true)
    | .error msg => (.error ("Failed to get embedding: " ++ msg), true)

/-- The upsert request body `{ id?, content, metadata? }` (part_001
lines 53-57).  `content` may be absent or a non-string value. -/
structure LessonUpsertRequest where
  id : Option IdVal
  content : Option MVal
  metadata : Option JsObj
deriving DecidableEq

/-- Negation of the check `!lessonData.content || typeof
lessonData.content !== string` (part_001 line 68): the content is valid
exactly when it is a truthy string, i.e. a non-empty string. -/
def contentValid : Option MVal → Bool
  | some (.str s) => !s.isEmpty
  | _ => false

/-- The vector record written to Pinecone (part_001 lines 84-92). -/
structure VectorRecord where
  id : String
  values : Embedding
  metadata : JsObj
deriving DecidableEq

/-- Models the object literal `\x7b content: lessonData.content,
...(lessonData.metadata || \x7b\x7d), lastUpdated: new
Date().toISOString() \x7d` (part_001 lines 87-91), as an
ordered object literal: the spread of the caller metadata sits between the
reserved `content` assignment and the reserved `lastUpdated` assignment. -/
def builtMetadata (content : String) (callerMeta : Option JsObj) (now : String) :
    JsObj :=
  [("content", MVal.str content)]
    ++ (callerMeta.getD [])
    ++ [("lastUpdated", MVal.str now)]

/-- Outcome of the upsert handler: HTTP 200 with `{message, id}` or an
error status with `{error}`. -/
inductive UpsertOutcome where
  | ok (message : String) (id : String)
  | err (status : Nat) (msg : String)
deriving DecidableEq

/-- Full observable result of one upsert request. -/
structure UpsertResult where
  outcome : UpsertOutcome
  /-- whether the external embeddings API was invoked -/
  embedApiCalled : Bool
  /-- the record handed to `pineconeNamespace.upsert`, when the write
  succeeded -/
  upserted : Option VectorRecord
deriving DecidableEq

/-- The POST handler of `/api/upsert-lesson` (part_001 lines 62-113).
`embedApi` and `storeApi` are the external collaborators; `fresh` is the
uuid that `uuidv4()` would generate, `now` the ISO timestamp of
`new Date().toISOString()`. -/
def upsertPOST (req : LessonUpsertRequest)
    (embedApi : String → Except String Embedding)
    (storeApi : VectorRecord → Except String Unit)
    (fresh : String) (now : String) : UpsertResult :=
  match req.content with
  | some (.str s) =>
    if s.isEmpty then
      { outcome := .err 400 "Invalid request: content field is required and must be a string."
        embedApiCalled := false, upserted := none }
    else
      match getEmbedding embedApi s with
      | (.error msg, called) =>
        { outcome := .err 500 ("There was an error processing your request: " ++ msg)
          embedApiCalled := called, upserted := none }
      | (.ok embedding, called) =>
        let theId := stringId (lessonId req.id fresh)
        let rec1 : VectorRecord :=
          { id := theId, values := embedding
            metadata := builtMetadata s req.metadata now }
        match storeApi rec1 with
        | .ok _ =>
          { outcome := .ok ("Successfully upserted lesson with ID: " ++ theId) theId
            embedApiCalled := called, upserted := some rec1 }
        | .error msg =>
          { outcome := .err 500 ("There was an error processing your request: " ++ msg)
            embedApiCalled := called, upserted := none }
  | _ =>
    { outcome := .err 400 "Invalid request: content field is required and must be a string."
      embedApiCalled := false, upserted := none }

/-! ## Chat handler (`src/api/chat/route.ts`) -/

/-- A chat message role. -/
inductive Role where
  | user
  | assistant
deriving DecidableEq, Repr

/-- A chat history entry (`HumanMessage` / `AIMessage`). -/
structure ChatMessage where
  role : Role
  content : String
deriving DecidableEq, Repr

/-- An incoming request message `{role, content}`; `content` may be absent. -/
structure ReqMessage where
  role : String
  content : Option String
deriving DecidableEq, Repr

/-- The metadata filter `{ id: { $in: lessonIds } }` built at route.ts
lines 89-91. -/
structure MetadataFilter where
  idIn : List String
deriving DecidableEq, Repr

/-- Models `lessonIds.length > 0 ? \x7b id: \x7b $in: lessonIds \x7d \x7d :
undefined` (route.ts lines 89-91). -/
def mkMetadataFilter (lessonIds : List String) : Option MetadataFilter :=
  if lessonIds.length > 0 then some ⟨lessonIds⟩ else none

/-- The retriever tool held by a session agent executor, with the mutable
`retriever.filter` (route.ts lines 31-39 and 167-179). -/
structure RetrieverTool where
  name : String
  retrieverFilter : Option MetadataFilter
deriving DecidableEq, Repr

/-- A chat session: the agent executor is represented by its observable
state (its tools) together with the chat history (route.ts lines 23-26). -/
structure ChatSession where
  tools : List RetrieverTool
  chatHistory : List ChatMessage
deriving DecidableEq, Repr

/-- Models `createNewUserSession(metadataFilter)` (route.ts lines 149-240): one
retriever tool named `fusion360_search` carrying the filter, and an empty
chat history. -/
def createNewUserSession (metadataFilter : Option MetadataFilter) : ChatSession :=
  { tools := [{ name := "fusion360_search", retrieverFilter := metadataFilter }]
    chatHistory := [] }

/-- First-match update used by `updateExistingSessionFilters`: set the
`retriever.filter` of the first tool named `fusion360_search` (mirrors
`findIndex` plus in-place assignment, route.ts lines 252-265). -/
def setToolFilter (f : MetadataFilter) : List RetrieverTool → List RetrieverTool
  | [] => []
  | t :: ts =>
    if t.name = "fusion360_search" then
      { t with retrieverFilter := some f } :: ts
    else
      t :: setToolFilter f ts

/-- Models `updateExistingSessionFilters(userSession, metadataFilter)`
(route.ts lines 248-266): a no-op when no filter is supplied, otherwise
overwrite the retriever tool filter. -/
def updateExistingSessionFilters (s : ChatSession) (metadataFilter : Option MetadataFilter) :
    ChatSession :=
  match metadataFilter with
  | none => s
  | some f => { s with tools := setToolFilter f s.tools }

/-- The process-wide `conversationHistories` map (route.ts line 59),
modelled as an association list with JavaScript `Map` get/set semantics. -/
abbrev SessionMap : Type := List (String × ChatSession)

/-- Models `Map.get`. -/
def mapGet (m : SessionMap) (k : String) : Option ChatSession :=
  (m.find? (fun p => p.1 = k)).map (fun p => p.2)

/-- Models `Map.set`: replace the binding if present, otherwise append. -/
def mapSet (m : SessionMap) (k : String) (v : ChatSession) : SessionMap :=
  if (m.find? (fun p => p.1 = k)).isSome then
    m.map (fun p => if p.1 = k then (k, v) else p)
  else
    m ++ [(k, v)]

/-- The result of `agentExecutor.invoke` (route.ts lines 105-108):
`output` string, plus the optional `intermediateSteps` sequence (absent
when the executor does not report steps). -/
structure AgentResult where
  output : String
  intermediateSteps : Option (List String)
deriving DecidableEq, Repr

/-- Models `result.intermediateSteps?.length > 0` (route.ts line 126):
this is `false` when `intermediateSteps` is absent (`undefined > 0` is
false). -/
def usedRetrieval (result : AgentResult) : Bool :=
  match result.intermediateSteps with
  | none => false
  | some steps => steps.length > 0

/-- The chat request body post-destructuring-defaults:
`\x7b messages, userId = default-user, lessonIds = [] \x7d` (route.ts line 68). -/
structure ChatRequest where
  messages : Option (List ReqMessage)
  userId : String
  lessonIds : List String
deriving DecidableEq, Repr

/-- Outcome of the chat handler: HTTP 200 with `{response, debug}` or an
error status with `{error}`. -/
inductive ChatOutcome where
  | ok (response : String) (usedRetrieval : Bool) (appliedFilter : Option MetadataFilter)
  | err (status : Nat) (msg : String)
deriving DecidableEq, Repr

/-- Full observable result of one chat request. -/
structure ChatResult where
  outcome : ChatOutcome
  store : SessionMap
  /-- whether `agentExecutor.invoke` was reached -/
  agentInvoked : Bool
deriving DecidableEq, Repr

/-- Models the two `userSession.chatHistory.push(...)` calls followed by
the trim at route.ts lines 114-120: append the user and assistant
messages, then `slice(-10)` when the length exceeds 10. -/
def appendAndTrim (h : List ChatMessage) (userMessage responseText : String) :
    List ChatMessage :=
  let pushed := h ++ [⟨.user, userMessage⟩, ⟨.assistant, responseText⟩]
  if pushed.length > 10 then pushed.drop (pushed.length - 10) else pushed

/-- The post-validation tail of the chat handler (route.ts lines 84-129):
session resolution, filter propagation, agent invocation, history update
and response construction.  `userMessage` is the validated content of the
latest request message. -/
def chatCore (store : SessionMap) (req : ChatRequest)
    (invoke : ChatSession → String → Except String AgentResult)
    (userMessage : String) : ChatResult :=
  let metadataFilter := mkMetadataFilter req.lessonIds
  let resolved : ChatSession × SessionMap :=
    match mapGet store req.userId with
    | none =>
      let s := createNewUserSession metadataFilter
      (s, mapSet store req.userId s)
    | some s =>
      let s1 := updateExistingSessionFilters s metadataFilter
      (s1, mapSet store req.userId s1)
  let userSession := resolved.1
  let store1 := resolved.2
  match invoke userSession userMessage with
  | .error e =>
    { outcome := .err 500 ("There was an error processing your request: " ++ e)
      store := store1, agentInvoked := true }
  | .ok result =>
    let responseText :=
      if result.output.isEmpty then
        "I couldn\x27t generate a response. Please try again."
      else result.output
    let newHistory := appendAndTrim userSession.chatHistory userMessage responseText
    let session2 := { userSession with chatHistory := newHistory }
    { outcome := .ok responseText (usedRetrieval result) metadataFilter
      store := mapSet store1 req.userId session2
      agentInvoked := true }

/-- The POST handler of `/api/chat` (route.ts lines 65-141): request
validation (lines 70-79) followed by `chatCore`.  `invoke` is the agent
collaborator (it sees the session, whose tool filter scopes retrieval, and
the latest user message; the chat history it receives is the session
history, route.ts lines 105-108). -/
def chatPOST (store : SessionMap) (req : ChatRequest)
    (invoke : ChatSession → String → Except String AgentResult) : ChatResult :=
  match req.messages with
  | none =>
    { outcome := .err 400 "No messages found", store := store, agentInvoked := false }
  | some msgs =>
    if msgs.length = 0 then
      { outcome := .err 400 "No messages found", store := store, agentInvoked := false }
    else
      match msgs.getLast? with
      | none =>
        { outcome := .err 400 "Invalid message format", store := store, agentInvoked := false }
      | some latestMessage =>
        match latestMessage.content with
        | none =>
          { outcome := .err 400 "Invalid message format", store := store, agentInvoked := false }
        | some userMessage =>
          if userMessage.isEmpty then
            { outcome := .err 400 "Invalid message format", store := store, agentInvoked := false }
          else
            chatCore store req invoke userMessage

/-! ## Derived definitions used by the claim statements -/

/-- Whether an object literal contains an assignment of key `k`. -/
def hasKey (o : JsObj) (k : String) : Bool :=
  o.any (fun p => p.1 = k)

/-- The session the chat turn runs with: the freshly constructed session on
a first request, otherwise the existing session after the conditional
filter update (route.ts lines 95-102). -/
def resolveSession (store : SessionMap) (req : ChatRequest) : ChatSession :=
  match mapGet store req.userId with
  | none => createNewUserSession (mkMetadataFilter req.lessonIds)
  | some s => updateExistingSessionFilters s (mkMetadataFilter req.lessonIds)

/-- The chat history attached to `uid` before a request ([] when no session
exists yet). -/
def oldHistory (store : SessionMap) (uid : String) : List ChatMessage :=
  match mapGet store uid with
  | none => []
  | some s => s.chatHistory

/-- A chat history that consists of user/assistant pairs: even length,
strictly alternating roles starting with `user` (so a non-empty well-formed
history ends with an `assistant` message). -/
def wellFormed : List ChatMessage → Bool
  | [] => true
  | [_] => false
  | u :: a :: rest => u.role = Role.user && a.role = Role.assistant && wellFormed rest

/-- Runs `n` successive chat turns with the same request against the same
process-wide store. -/
def runTurns (n : Nat) (store : SessionMap) (req : ChatRequest)
    (invoke : ChatSession → String → Except String AgentResult) : SessionMap :=
  match n with
  | 0 => store
  | n + 1 => runTurns n (chatPOST store req invoke).store req invoke

/-! ## Lemmas about object literals and the upsert handler -/

theorem objGet_builtMetadata_lastUpdated (c : String) (m : Option JsObj) (now : String) :
    objGet (builtMetadata c m now) "lastUpdated" = some (.str now) := by
  simp [objGet, builtMetadata]

theorem objGet_builtMetadata_content_of_not_hasKey (c : String) (m : Option JsObj)
    (now : String) (h : hasKey (m.getD []) "content" = false) :
    objGet (builtMetadata c m now) "content" = some (.str c) := by
  have hnone : (m.getD []).reverse.find? (fun p => p.1 = "content") = none := by
    rw [List.find?_eq_none]
    intro x hx
    simp only [List.mem_reverse] at hx
    simp only [hasKey, List.any_eq_false] at h
    have := h x hx
    simpa using this
  simp [objGet, builtMetadata, hnone]

theorem objGet_builtMetadata_content_of_hasKey (c : String) (mm : JsObj)
    (now : String) (h : hasKey mm "content" = true) :
    objGet (builtMetadata c (some mm) now) "content" = objGet mm "content" := by
  have hsome : (mm.reverse.find? (fun p => p.1 = "content")).isSome := by
    rw [List.find?_isSome]
    simp only [hasKey, List.any_eq_true] at h
    obtain ⟨x, hx, hpx⟩ := h
    exact ⟨x, List.mem_reverse.mpr hx, hpx⟩
  obtain ⟨v, hv⟩ := Option.isSome_iff_exists.mp hsome
  simp [objGet, builtMetadata, hv]

/-- Inversion for the success path of the upsert handler: a record reaches
the vector store only when the content was a valid non-empty string, and
the record carries the resolved id and the merged metadata. -/
theorem upsertPOST_upserted_inv (req : LessonUpsertRequest)
    (embedApi : String → Except String Embedding)
    (storeApi : VectorRecord → Except String Unit)
    (fresh now : String) (rec1 : VectorRecord)
    (h : (upsertPOST req embedApi storeApi fresh now).upserted = some rec1) :
    ∃ s emb, req.content = some (.str s) ∧ s.isEmpty = false ∧
      rec1 = { id := stringId (lessonId req.id fresh), values := emb,
               metadata := builtMetadata s req.metadata now } := by
  rcases req with ⟨rid, rc, rm⟩
  cases rc with
  | none => simp [upsertPOST] at h
  | some v =>
    cases v with
    | num n => simp [upsertPOST] at h
    | boolean b => simp [upsertPOST] at h
    | str s =>
      by_cases hs : s.isEmpty
      · simp [upsertPOST, hs] at h
      · refine ⟨s, ?_⟩
        simp only [upsertPOST] at h
        rw [if_neg hs] at h
        rcases hg : getEmbedding embedApi s with ⟨res, called⟩
        rw [hg] at h
        cases res with
        | error msg => simp at h
        | ok emb =>
          dsimp only at h
          refine ⟨emb, rfl, by simpa using hs, ?_⟩
          rcases hst : storeApi { id := stringId (lessonId rid fresh), values := emb,
                                  metadata := builtMetadata s rm now } with msg | u
          · rw [hst] at h
            simp at h
          · rw [hst] at h
            simp at h
            simpa using h.symm

/-! ## Lemmas about the session map and the chat handler -/

theorem mapSet_cons_ne (a : String × ChatSession) (m : SessionMap) (k : String)
    (v : ChatSession) (h : ¬ a.1 = k) :
    mapSet (a :: m) k v = a :: mapSet m k v := by
  unfold mapSet
  rw [List.find?_cons_of_neg _ (by simpa using h)]
  by_cases hs : (m.find? (fun p => p.1 = k)).isSome
  · rw [if_pos hs, if_pos hs]
    simp [if_neg h]
  · rw [if_neg hs, if_neg hs]
    simp

theorem mapGet_mapSet_same (m : SessionMap) (k : String) (v : ChatSession) :
    mapGet (mapSet m k v) k = some v := by
  induction m with
  | nil => simp [mapSet, mapGet]
  | cons a m ih =>
    by_cases hk : a.1 = k
    · unfold mapSet
      rw [List.find?_cons_of_pos _ (by simpa using hk)]
      simp only [Option.isSome_some, if_pos]
      simp [mapGet, hk]
    · rw [mapSet_cons_ne a m k v hk]
      unfold mapGet
      rw [List.find?_cons_of_neg _ (by simpa using hk)]
      exact ih

/-- The two session-resolution branches of `chatCore` both store the
resolved session under the user id before invoking the agent, so `chatCore`
factors through `resolveSession`. -/
theorem chatCore_eq (store : SessionMap) (req : ChatRequest)
    (invoke : ChatSession → String → Except String AgentResult) (m : String) :
    chatCore store req invoke m =
      match invoke (resolveSession store req) m with
      | .error e =>
        { outcome := .err 500 ("There was an error processing your request: " ++ e)
          store := mapSet store req.userId (resolveSession store req)
          agentInvoked := true }
      | .ok result =>
        let responseText :=
          if result.output.isEmpty then
            "I couldn\x27t generate a response. Please try again."
          else result.output
        { outcome := .ok responseText (usedRetrieval result) (mkMetadataFilter req.lessonIds)
          store := mapSet (mapSet store req.userId (resolveSession store req)) req.userId
            { resolveSession store req with
              chatHistory :=
                appendAndTrim (resolveSession store req).chatHistory m responseText }
          agentInvoked := true } := by
  cases hg : mapGet store req.userId with
  | none => simp only [chatCore, resolveSession, hg]
  | some s => simp only [chatCore, resolveSession, hg]

/-- A request that passes validation is handled by `chatCore` on the
content of its last message. -/
theorem chatPOST_eq_chatCore (store : SessionMap) (req : ChatRequest)
    (invoke : ChatSession → String → Except String AgentResult)
    (msgs : List ReqMessage) (last : ReqMessage) (m : String)
    (hm : req.messages = some msgs) (hl : msgs.getLast? = some last)
    (hc : last.content = some m) (hne : m.isEmpty = false) :
    chatPOST store req invoke = chatCore store req invoke m := by
  have hlen : ¬ msgs.length = 0 := by
    intro h0
    rw [List.length_eq_zero] at h0
    subst h0
    simp at hl
  simp only [chatPOST, hm]
  rw [if_neg hlen, hl]
  simp only [hc, hne]
  rw [if_neg (by simp [hne])]

/-- Fact: `updateExistingSessionFilters` never touches the chat history. -/
theorem updateExistingSessionFilters_chatHistory (s : ChatSession)
    (mf : Option MetadataFilter) :
    (updateExistingSessionFilters s mf).chatHistory = s.chatHistory := by
  cases mf with
  | none => rfl
  | some f => rfl

/-- The history the resolved session enters the agent invocation with is
the pre-request history of the user. -/
theorem resolveSession_chatHistory (store : SessionMap) (req : ChatRequest) :
    (resolveSession store req).chatHistory = oldHistory store req.userId := by
  unfold resolveSession oldHistory
  cases mapGet store req.userId with
  | none => rfl
  | some s => exact updateExistingSessionFilters_chatHistory s _

/-- Success inversion for the chat handler: on an HTTP 200 outcome the
response text, the debug fields and the stored session are the ones built
by the success branch of `chatCore`. -/
theorem chatPOST_ok_inv (store : SessionMap) (req : ChatRequest)
    (invoke : ChatSession → String → Except String AgentResult)
    (resp : String) (u : Bool) (f : Option MetadataFilter)
    (h : (chatPOST store req invoke).outcome = .ok resp u f) :
    ∃ m result,
      invoke (resolveSession store req) m = .ok result ∧
      resp = (if result.output.isEmpty then
          "I couldn\x27t generate a response. Please try again."
        else result.output) ∧
      u = usedRetrieval result ∧
      f = mkMetadataFilter req.lessonIds ∧
      (chatPOST store req invoke).store =
        mapSet (mapSet store req.userId (resolveSession store req)) req.userId
          { resolveSession store req with
            chatHistory := appendAndTrim (resolveSession store req).chatHistory m resp } := by
  rcases hmsg : req.messages with _ | msgs
  · simp [chatPOST, hmsg] at h
  · rcases hlast : msgs.getLast? with _ | last
    · rw [List.getLast?_eq_none_iff] at hlast
      subst hlast
      simp [chatPOST, hmsg] at h
    · rcases hcont : last.content with _ | m
      · have hlen : ¬ msgs.length = 0 := by
          intro h0
          rw [List.length_eq_zero] at h0
          subst h0
          simp at hlast
        simp only [chatPOST, hmsg] at h
        rw [if_neg hlen, hlast] at h
        simp only [hcont] at h
        simp at h
      · by_cases hne : m.isEmpty
        · have hlen : ¬ msgs.length = 0 := by
            intro h0
            rw [List.length_eq_zero] at h0
            subst h0
            simp at hlast
          simp only [chatPOST, hmsg] at h
          rw [if_neg hlen, hlast] at h
          simp only [hcont] at h
          rw [if_pos hne] at h
          simp at h
        · rw [chatPOST_eq_chatCore store req invoke msgs last m hmsg hlast hcont
            (by simpa using hne)] at h ⊢
          rw [chatCore_eq] at h ⊢
          rcases hinv : invoke (resolveSession store req) m with e | result
          · rw [hinv] at h
            simp at h
          · rw [hinv] at h
            dsimp only at h ⊢
            simp only [ChatOutcome.ok.injEq] at h
            rcases h with ⟨h1, h2, h3⟩
            subst h1
            subst h2
            subst h3
            exact ⟨m, result, hinv, rfl, rfl, rfl, rfl⟩

/-- Fact: `appendAndTrim` keeps at most 10 entries when the previous history had
at most 10, and the result is always a suffix (a `drop`) of the appended
history. -/
theorem appendAndTrim_length_le (h : List ChatMessage) (m r : String) :
    (appendAndTrim h m r).length ≤ 10 := by
  simp only [appendAndTrim]
  split
  · rename_i hgt
    simp only [List.length_drop]
    omega
  · rename_i hgt
    simp only [List.length_append] at hgt ⊢
    omega

theorem appendAndTrim_drop (h : List ChatMessage) (m r : String) :
    ∃ k, appendAndTrim h m r =
      (h ++ [ChatMessage.mk Role.user m, ChatMessage.mk Role.assistant r]).drop k := by
  simp only [appendAndTrim]
  split
  · exact ⟨_, rfl⟩
  · exact ⟨0, (List.drop_zero _).symm⟩

theorem wellFormed_append_pair (h : List ChatMessage) (m r : String)
    (hw : wellFormed h = true) :
    wellFormed (h ++ [ChatMessage.mk Role.user m, ChatMessage.mk Role.assistant r])
      = true := by
  induction h using wellFormed.induct with
  | case1 => simp [wellFormed]
  | case2 x => simp [wellFormed] at hw
  | case3 u a rest ih =>
    simp only [wellFormed, Bool.and_eq_true, decide_eq_true_eq] at hw
    simp only [List.cons_append, wellFormed, Bool.and_eq_true, decide_eq_true_eq]
    exact ⟨⟨hw.1.1, hw.1.2⟩, ih hw.2⟩

theorem wellFormed_length_even (l : List ChatMessage) (hw : wellFormed l = true) :
    l.length % 2 = 0 := by
  induction l using wellFormed.induct with
  | case1 => simp
  | case2 x => simp [wellFormed] at hw
  | case3 u a rest ih =>
    simp only [wellFormed, Bool.and_eq_true] at hw
    have he := ih hw.2
    simp only [List.length_cons]
    omega

theorem wellFormed_drop_two (l : List ChatMessage) (hw : wellFormed l = true) :
    wellFormed (l.drop 2) = true := by
  match l with
  | [] => simpa using hw
  | [x] => simp [wellFormed] at hw
  | u :: a :: rest =>
    simp only [wellFormed, Bool.and_eq_true] at hw
    simpa using hw.2

theorem wellFormed_drop_even (k : Nat) (l : List ChatMessage)
    (hw : wellFormed l = true) : wellFormed (l.drop (2 * k)) = true := by
  induction k generalizing l with
  | zero => simpa using hw
  | succ k2 ih =>
    have : 2 * (k2 + 1) = 2 + 2 * k2 := by omega
    rw [this, ← List.drop_drop]
    exact ih _ (wellFormed_drop_two l hw)

theorem getLast?_drop_of_lt (l : List ChatMessage) (k : Nat) (h : k < l.length) :
    (l.drop k).getLast? = l.getLast? := by
  induction l generalizing k with
  | nil => simp at h
  | cons a as ih =>
    cases k with
    | zero => simp
    | succ k2 =>
      simp only [List.drop_succ_cons]
      rw [ih k2 (by simpa using h)]
      cases as with
      | nil => simp at h
      | cons b bs => simp

theorem appendAndTrim_wellFormed (h : List ChatMessage) (m r : String)
    (hw : wellFormed h = true) :
    wellFormed (appendAndTrim h m r) = true := by
  have hwp := wellFormed_append_pair h m r hw
  have heven := wellFormed_length_even _ hwp
  simp only [appendAndTrim]
  split
  · rename_i hgt
    obtain ⟨k, hk⟩ : ∃ k,
        (h ++ [ChatMessage.mk Role.user m, ChatMessage.mk Role.assistant r]).length - 10
          = 2 * k := by
      refine ⟨((h ++ [ChatMessage.mk Role.user m,
        ChatMessage.mk Role.assistant r]).length - 10) / 2, ?_⟩
      omega
    rw [hk]
    exact wellFormed_drop_even k _ hwp
  · exact hwp

theorem appendAndTrim_getLast (h : List ChatMessage) (m r : String) :
    (appendAndTrim h m r).getLast? = some (ChatMessage.mk Role.assistant r) := by
  have hlast : (h ++ [ChatMessage.mk Role.user m,
      ChatMessage.mk Role.assistant r]).getLast? =
      some (ChatMessage.mk Role.assistant r) := by
    simp
  simp only [appendAndTrim]
  split
  · rename_i hgt
    rw [getLast?_drop_of_lt _ _ (by omega)]
    exact hlast
  · exact hlast

/-! ## Claim theorems for the upsert handler -/

/-- C1 (counterexample): the claim is false as stated.  For the upsert
request with original content `"orig text"` and caller metadata
`{content: "caller value"}`, the record handed to the vector store has
`metadata.content = "caller value"`, not the original content: in the
object literal `{content: ..., ...callerMetadata, lastUpdated: ...}` the
spread comes after the reserved `content` key, so the caller key wins. -/
theorem c1_reserved_content_cex :
    ((upsertPOST
        { id := some (.str "1011"), content := some (.str "orig text"),
          metadata := some [("content", MVal.str "caller value")] }
        (fun _ => .ok [1]) (fun _ => .ok ()) "uuid-1" "2026-01-01T00:00:00.000Z").upserted.map
      (fun rec1 => objGet rec1.metadata "content"))
      = some (some (.str "caller value")) ∧
    MVal.str "caller value" ≠ MVal.str "orig text" := by
  decide

/-- C1 (amended): in the stored metadata, the reserved `lastUpdated` key
does take precedence over any caller-supplied `lastUpdated`; the reserved
`content` key does NOT take precedence — the stored content equals the
original (uncleaned) request content exactly when the caller metadata
carries no `content` key, and on conflict the caller-supplied `content` value
wins. -/
theorem c1_metadata_precedence_amended (req : LessonUpsertRequest)
    (embedApi : String → Except String Embedding)
    (storeApi : VectorRecord → Except String Unit)
    (fresh now : String) (rec1 : VectorRecord)
    (h : (upsertPOST req embedApi storeApi fresh now).upserted = some rec1) :
    objGet rec1.metadata "lastUpdated" = some (.str now) ∧
    (∀ s, req.content = some (.str s) →
      hasKey (req.metadata.getD []) "content" = false →
      objGet rec1.metadata "content" = some (.str s)) ∧
    (∀ m, req.metadata = some m → hasKey m "content" = true →
      objGet rec1.metadata "content" = objGet m "content") := by
  obtain ⟨s, emb, hc, hs, hrec⟩ := upsertPOST_upserted_inv req embedApi storeApi fresh now rec1 h
  subst hrec
  refine ⟨objGet_builtMetadata_lastUpdated s req.metadata now, ?_, ?_⟩
  · intro s2 hc2 hnk
    rw [hc] at hc2
    have : s = s2 := by
      injection hc2 with h2
      injection h2
    subst this
    exact objGet_builtMetadata_content_of_not_hasKey s req.metadata now hnk
  · intro m hm hk
    rw [hm]
    exact objGet_builtMetadata_content_of_hasKey s m now hk

/-- C1 (amended, witness): instantiation at a concrete successful upsert
with caller metadata `{topic: "T"}` (no `content` key). -/
theorem c1_metadata_precedence_amended_witness :
    objGet (builtMetadata "text" (some [("topic", MVal.str "T")]) "N") "lastUpdated"
        = some (.str "N") ∧
    objGet (builtMetadata "text" (some [("topic", MVal.str "T")]) "N") "content"
        = some (.str "text") := by
  have h := c1_metadata_precedence_amended
    { id := some (.str "7"), content := some (.str "text"),
      metadata := some [("topic", MVal.str "T")] }
    (fun _ => .ok [2]) (fun _ => .ok ()) "u" "N"
    { id := "7", values := [2],
      metadata := builtMetadata "text" (some [("topic", MVal.str "T")]) "N" }
    (by decide)
  exact ⟨h.1, h.2.1 "text" rfl (by decide)⟩

/-- C2 (counterexample): the claim is false as stated.  For the upsert
request supplying the numeric id `0` (with valid content), the stored
record ID is the freshly generated uuid, not the decimal string `"0"`:
`lessonData.id || uuidv4()` treats the falsy number `0` as absent. -/
theorem c2_id_zero_cex :
    ((upsertPOST { id := some (.num 0), content := some (.str "hello"), metadata := none }
        (fun _ => .ok [1]) (fun _ => .ok ()) "uuid-1" "T").upserted.map (fun r => r.id))
      = some "uuid-1" ∧ ("uuid-1" : String) ≠ "0" := by
  decide

/-- C2 (amended): the stored record ID equals the supplied id coerced to
string when that id is truthy (a non-empty string is stored exactly as
given; a nonzero number is stored as its decimal string form); a fresh
unique string ID is generated when the id is not supplied OR when the
supplied id is falsy (the number `0` or the empty string). -/
theorem c2_id_resolution_amended (req : LessonUpsertRequest)
    (embedApi : String → Except String Embedding)
    (storeApi : VectorRecord → Except String Unit)
    (fresh now : String) (rec1 : VectorRecord)
    (h : (upsertPOST req embedApi storeApi fresh now).upserted = some rec1) :
    rec1.id = stringId (lessonId req.id fresh) ∧
    (∀ s, req.id = some (.str s) → s ≠ "" → rec1.id = s) ∧
    (∀ n, req.id = some (.num n) → n ≠ 0 → rec1.id = toString n) ∧
    (req.id = none → rec1.id = fresh) ∧
    (∀ v, req.id = some v → idTruthy v = false → rec1.id = fresh) := by
  obtain ⟨s, emb, hc, hs, hrec⟩ := upsertPOST_upserted_inv req embedApi storeApi fresh now rec1 h
  subst hrec
  refine ⟨rfl, ?_, ?_, ?_, ?_⟩
  · intro s2 hid hne
    rw [hid]
    have he : s2.isEmpty = false := by
      cases hx : s2.isEmpty with
      | false => rfl
      | true => exact absurd ((String.isEmpty_iff s2).mp hx) hne
    simp [lessonId, stringId, idTruthy, he]
  · intro n hid hne
    rw [hid]
    simp only [lessonId, idTruthy]
    rw [if_pos (by simpa using hne)]
    rfl
  · intro hid
    rw [hid]
    rfl
  · intro v hid hfalsy
    rw [hid]
    simp [lessonId, hfalsy, stringId]

/-- C2 (amended, witness): instantiation at a concrete successful upsert
with the supplied string id `"7"`. -/
theorem c2_id_resolution_amended_witness :
    ("7" : String) = stringId (lessonId (some (.str "7")) "u") ∧ ("7" : String) = "7" := by
  have h := c2_id_resolution_amended
    { id := some (.str "7"), content := some (.str "text"), metadata := none }
    (fun _ => .ok [2]) (fun _ => .ok ()) "u" "N"
    { id := "7", values := [2], metadata := builtMetadata "text" none "N" }
    (by decide)
  exact ⟨h.1, h.2.1 "7" rfl (by decide)⟩

/-- C7: an upsert request whose content is missing, not a string, or the
empty string gets HTTP 400 with the embeddings API never called and no
record written; a request whose content is a non-empty string that cleans
to the empty string instead fails inside `getEmbedding` with the embedding
error, mapped to HTTP 500 by the top-level catch (again with no external
embeddings-API call and no record written). -/
theorem c7_content_validation (req : LessonUpsertRequest)
    (embedApi : String → Except String Embedding)
    (storeApi : VectorRecord → Except String Unit)
    (fresh now : String) :
    (contentValid req.content = false →
      upsertPOST req embedApi storeApi fresh now =
        { outcome := .err 400 "Invalid request: content field is required and must be a string."
          embedApiCalled := false, upserted := none }) ∧
    (∀ s, req.content = some (.str s) → s.isEmpty = false → cleanText s = "" →
      upsertPOST req embedApi storeApi fresh now =
        { outcome := .err 500 "There was an error processing your request: Cannot generate embedding for empty text."
          embedApiCalled := false, upserted := none }) := by
  constructor
  · intro hinvalid
    rcases req with ⟨rid, rc, rm⟩
    cases rc with
    | none => rfl
    | some v =>
      cases v with
      | num n => rfl
      | boolean b => rfl
      | str s =>
        simp only [contentValid] at hinvalid
        simp only [upsertPOST]
        rw [if_pos (by simpa using hinvalid)]
  · intro s hc hs hclean
    rcases req with ⟨rid, rc, rm⟩
    simp only at hc
    subst hc
    simp only [upsertPOST]
    rw [if_neg (by simp [hs])]
    have hg : getEmbedding embedApi s =
        (.error "Cannot generate embedding for empty text.", false) := by
      simp [getEmbedding, hclean]
    rw [hg]
    rfl

/-- C7 (witness): instantiation at the request with missing content, and at
the request whose content is a single space (non-empty, cleans to empty). -/
theorem c7_content_validation_witness :
    (upsertPOST { id := none, content := none, metadata := none }
        (fun _ => .ok [1]) (fun _ => .ok ()) "u" "N" =
      { outcome := .err 400 "Invalid request: content field is required and must be a string."
        embedApiCalled := false, upserted := none }) ∧
    (upsertPOST { id := none, content := some (.str " "), metadata := none }
        (fun _ => .ok [1]) (fun _ => .ok ()) "u" "N" =
      { outcome := .err 500 "There was an error processing your request: Cannot generate embedding for empty text."
        embedApiCalled := false, upserted := none }) := by
  constructor
  · exact (c7_content_validation { id := none, content := none, metadata := none }
      (fun _ => .ok [1]) (fun _ => .ok ()) "u" "N").1 (by decide)
  · exact (c7_content_validation { id := none, content := some (.str " "), metadata := none }
      (fun _ => .ok [1]) (fun _ => .ok ()) "u" "N").2 " " rfl (by decide) (by decide)

/-! ## Claim theorems for the chat handler -/

/-- C3: after every successful chat turn the stored history has at most 10
entries, and it is a suffix (`drop k`) of the previous history with the new
user/assistant pair appended — the oldest entries are discarded first and
the remaining entries keep their original chronological order.  After 11
successive turns for one user starting from an empty store, the history
length is exactly 10. -/
theorem c3_history_cap :
    (∀ store req invoke resp u f,
      (chatPOST store req invoke).outcome = .ok resp u f →
      ∃ s2 m, mapGet (chatPOST store req invoke).store req.userId = some s2 ∧
        s2.chatHistory.length ≤ 10 ∧
        ∃ k, s2.chatHistory =
          (oldHistory store req.userId ++
            [ChatMessage.mk Role.user m, ChatMessage.mk Role.assistant resp]).drop k) ∧
    (mapGet (runTurns 11 [] ⟨some [⟨"user", some "hi"⟩], "u1", []⟩
        (fun _ _ => .ok ⟨"resp", none⟩)) "u1").map (fun s => s.chatHistory.length)
      = some 10 := by
  constructor
  · intro store req invoke resp u f h
    obtain ⟨m, result, hinv, hresp, hu, hf, hstore⟩ :=
      chatPOST_ok_inv store req invoke resp u f h
    refine ⟨{ resolveSession store req with
        chatHistory := appendAndTrim (resolveSession store req).chatHistory m resp },
      m, ?_, ?_, ?_⟩
    · rw [hstore]
      exact mapGet_mapSet_same _ _ _
    · exact appendAndTrim_length_le _ _ _
    · show ∃ k, appendAndTrim (resolveSession store req).chatHistory m resp = _
      rw [← resolveSession_chatHistory store req]
      exact appendAndTrim_drop _ _ _
  · decide

/-- C3 (witness): one successful turn against the empty store. -/
theorem c3_history_cap_witness :
    ∃ s2 m, mapGet (chatPOST [] ⟨some [⟨"user", some "hi"⟩], "u1", []⟩
        (fun _ _ => .ok ⟨"ok", none⟩)).store "u1" = some s2 ∧
      s2.chatHistory.length ≤ 10 ∧
      ∃ k, s2.chatHistory =
        (oldHistory [] "u1" ++
          [ChatMessage.mk Role.user m, ChatMessage.mk Role.assistant "ok"]).drop k :=
  c3_history_cap.1 [] ⟨some [⟨"user", some "hi"⟩], "u1", []⟩
    (fun _ _ => .ok ⟨"ok", none⟩) "ok" false none (by decide)

/-- C4: on every valid (successful) chat request the `appliedFilter`
returned in the debug object is exactly the derived metadata filter:
present and equal to `{id: {$in: lessonIds}}` iff `lessonIds` is non-empty,
absent otherwise. -/
theorem c4_applied_filter (store : SessionMap) (req : ChatRequest)
    (invoke : ChatSession → String → Except String AgentResult)
    (resp : String) (u : Bool) (f : Option MetadataFilter)
    (h : (chatPOST store req invoke).outcome = .ok resp u f) :
    f = mkMetadataFilter req.lessonIds ∧
    (req.lessonIds ≠ [] → f = some ⟨req.lessonIds⟩) ∧
    (req.lessonIds = [] → f = none) := by
  obtain ⟨m, result, hinv, hresp, hu, hf, hstore⟩ :=
    chatPOST_ok_inv store req invoke resp u f h
  refine ⟨hf, ?_, ?_⟩
  · intro hne
    rw [hf]
    unfold mkMetadataFilter
    rw [if_pos (List.length_pos.mpr hne)]
  · intro he
    rw [hf, he]
    rfl

/-- C4 (witness): instantiation with `lessonIds = ["1001","1002"]`. -/
theorem c4_applied_filter_witness :
    some (MetadataFilter.mk ["1001", "1002"]) =
        mkMetadataFilter ["1001", "1002"] ∧
    (["1001", "1002"] ≠ ([] : List String) →
      some (MetadataFilter.mk ["1001", "1002"]) = some (MetadataFilter.mk ["1001", "1002"])) := by
  have h := c4_applied_filter [] ⟨some [⟨"user", some "hi"⟩], "u1", ["1001", "1002"]⟩
    (fun _ _ => .ok ⟨"ok", none⟩) "ok" false (some ⟨["1001", "1002"]⟩) (by decide)
  exact ⟨h.1, fun hne => by rw [h.2.1 hne]⟩

/-- C5: filter propagation into an existing session overwrites the
retrieval tool filter only when the derived filter is present; an absent
filter leaves the session completely unchanged (the previously set filter
is not cleared), and a present filter changes nothing but the tool filter
(in particular the chat history is untouched). -/
theorem c5_filter_propagation (s : ChatSession) (old : Option MetadataFilter)
    (hts : s.tools = [{ name := "fusion360_search", retrieverFilter := old }]) :
    updateExistingSessionFilters s none = s ∧
    (∀ mf, (updateExistingSessionFilters s mf).chatHistory = s.chatHistory) ∧
    (∀ f, updateExistingSessionFilters s (some f) =
      { tools := [{ name := "fusion360_search", retrieverFilter := some f }]
        chatHistory := s.chatHistory }) := by
  refine ⟨rfl, fun mf => updateExistingSessionFilters_chatHistory s mf, ?_⟩
  intro f
  rcases s with ⟨tools, hist⟩
  simp only at hts
  subst hts
  rfl

/-- C5 (witness): a session holding the filter `{id: {$in: ["1"]}}` keeps
it on an absent filter and has it overwritten by `{id: {$in: ["2"]}}`. -/
theorem c5_filter_propagation_witness :
    updateExistingSessionFilters
        ⟨[{ name := "fusion360_search", retrieverFilter := some ⟨["1"]⟩ }], []⟩ none =
      ⟨[{ name := "fusion360_search", retrieverFilter := some ⟨["1"]⟩ }], []⟩ ∧
    updateExistingSessionFilters
        ⟨[{ name := "fusion360_search", retrieverFilter := some ⟨["1"]⟩ }], []⟩
        (some ⟨["2"]⟩) =
      ⟨[{ name := "fusion360_search", retrieverFilter := some ⟨["2"]⟩ }], []⟩ := by
  have h := c5_filter_propagation
    ⟨[{ name := "fusion360_search", retrieverFilter := some ⟨["1"]⟩ }], []⟩
    (some ⟨["1"]⟩) rfl
  exact ⟨h.1, h.2.2 ⟨["2"]⟩⟩

/-- C6: on every successful chat turn the debug field `usedRetrieval` is
true iff the result of the agent collaborator reports a non-empty
intermediate-steps sequence (an absent sequence counts as no tool
invocation, since `undefined > 0` is false). -/
theorem c6_used_retrieval (store : SessionMap) (req : ChatRequest)
    (res : AgentResult) (resp : String) (u : Bool) (f : Option MetadataFilter)
    (h : (chatPOST store req (fun _ _ => .ok res)).outcome = .ok resp u f) :
    u = true ↔ ∃ steps, res.intermediateSteps = some steps ∧ 0 < steps.length := by
  obtain ⟨m, result, hinv, hresp, hu, hf, hstore⟩ :=
    chatPOST_ok_inv store req (fun _ _ => .ok res) resp u f h
  have hres : res = result := by
    injection hinv
  subst hres
  subst hu
  unfold usedRetrieval
  cases hsteps : res.intermediateSteps with
  | none => simp
  | some steps => simp

/-- C6 (witness): one tool invocation reported, `usedRetrieval = true`. -/
theorem c6_used_retrieval_witness :
    (true = true) ↔
      ∃ steps, (AgentResult.mk "r" (some ["step"])).intermediateSteps = some steps ∧
        0 < steps.length :=
  c6_used_retrieval [] ⟨some [⟨"user", some "hi"⟩], "u1", []⟩
    ⟨"r", some ["step"]⟩ "r" true none (by decide)

/-- C8: a chat request whose `messages` is absent or empty, or whose last
message lacks `content`, is rejected with HTTP 400, the agent collaborator
is never invoked, and the session store is untouched. -/
theorem c8_message_validation (store : SessionMap) (req : ChatRequest)
    (invoke : ChatSession → String → Except String AgentResult)
    (h : req.messages = none ∨ req.messages = some [] ∨
      (∃ msgs last, req.messages = some msgs ∧ msgs.getLast? = some last ∧
        last.content = none)) :
    (∃ msg, (chatPOST store req invoke).outcome = .err 400 msg) ∧
    (chatPOST store req invoke).agentInvoked = false ∧
    (chatPOST store req invoke).store = store := by
  rcases h with h | h | ⟨msgs, last, hm, hl, hc⟩
  · simp [chatPOST, h]
  · simp [chatPOST, h]
  · have hlen : ¬ msgs.length = 0 := by
      intro h0
      rw [List.length_eq_zero] at h0
      subst h0
      simp at hl
    simp only [chatPOST, hm]
    rw [if_neg hlen, hl]
    simp [hc]

/-- C8 (witness): the request with absent `messages`. -/
theorem c8_message_validation_witness :
    (∃ msg, (chatPOST [] ⟨none, "u1", []⟩
      (fun _ _ => .ok ⟨"r", none⟩)).outcome = .err 400 msg) ∧
    (chatPOST [] ⟨none, "u1", []⟩ (fun _ _ => .ok ⟨"r", none⟩)).agentInvoked = false ∧
    (chatPOST [] ⟨none, "u1", []⟩ (fun _ _ => .ok ⟨"r", none⟩)).store = [] :=
  c8_message_validation [] ⟨none, "u1", []⟩ (fun _ _ => .ok ⟨"r", none⟩) (Or.inl rfl)

/-- C9: chat histories are sequences of user/assistant pairs — the empty
initial history is well-formed, every well-formed history has even length
(strict alternation user, assistant, user, ...), and a successful turn run
against a well-formed history stores a well-formed history whose final
entry is the assistant message carrying exactly the response string
returned to the caller (which is the fallback string when the agent output
was empty). -/
theorem c9_history_alternation :
    wellFormed ([] : List ChatMessage) = true ∧
    (∀ l : List ChatMessage, wellFormed l = true → l.length % 2 = 0) ∧
    (∀ store req invoke resp u f,
      (chatPOST store req invoke).outcome = .ok resp u f →
      wellFormed (oldHistory store req.userId) = true →
      ∃ s2, mapGet (chatPOST store req invoke).store req.userId = some s2 ∧
        wellFormed s2.chatHistory = true ∧
        s2.chatHistory.getLast? = some (ChatMessage.mk Role.assistant resp)) := by
  refine ⟨rfl, wellFormed_length_even, ?_⟩
  intro store req invoke resp u f h hw
  obtain ⟨m, result, hinv, hresp, hu, hf, hstore⟩ :=
    chatPOST_ok_inv store req invoke resp u f h
  refine ⟨{ resolveSession store req with
      chatHistory := appendAndTrim (resolveSession store req).chatHistory m resp }, ?_, ?_, ?_⟩
  · rw [hstore]
    exact mapGet_mapSet_same _ _ _
  · show wellFormed (appendAndTrim (resolveSession store req).chatHistory m resp) = true
    rw [resolveSession_chatHistory]
    exact appendAndTrim_wellFormed _ _ _ hw
  · exact appendAndTrim_getLast _ _ _

/-- C9 (witness): a turn whose agent output is empty, so the fallback
response string is both returned and stored as the final assistant
entry. -/
theorem c9_history_alternation_witness :
    ∃ s2, mapGet (chatPOST [] ⟨some [⟨"user", some "hi"⟩], "u1", []⟩
        (fun _ _ => .ok ⟨"", none⟩)).store "u1" = some s2 ∧
      wellFormed s2.chatHistory = true ∧
      s2.chatHistory.getLast? = some (ChatMessage.mk Role.assistant
        "I couldn\x27t generate a response. Please try again.") :=
  c9_history_alternation.2.2 [] ⟨some [⟨"user", some "hi"⟩], "u1", []⟩
    (fun _ _ => .ok ⟨"", none⟩)
    "I couldn\x27t generate a response. Please try again." false none
    (by decide) (by decide)

/-- C10: when the agent invocation fails on a valid chat request, the
handler answers HTTP 500; the stored history of the user is exactly what it
was before the request (nothing appended, no trim), but on a first request
the freshly constructed session (with empty history) remains in the session
map despite the error. -/
theorem c10_agent_error (store : SessionMap) (req : ChatRequest) (e : String)
    (invoke : ChatSession → String → Except String AgentResult)
    (hinv : ∀ s x, invoke s x = .error e)
    (msgs : List ReqMessage) (last : ReqMessage) (m : String)
    (hm : req.messages = some msgs) (hl : msgs.getLast? = some last)
    (hc : last.content = some m) (hne : m.isEmpty = false) :
    (chatPOST store req invoke).outcome =
      .err 500 ("There was an error processing your request: " ++ e) ∧
    (chatPOST store req invoke).agentInvoked = true ∧
    (∀ s, mapGet store req.userId = some s →
      ∃ s2, mapGet (chatPOST store req invoke).store req.userId = some s2 ∧
        s2.chatHistory = s.chatHistory) ∧
    (mapGet store req.userId = none →
      mapGet (chatPOST store req invoke).store req.userId =
        some (createNewUserSession (mkMetadataFilter req.lessonIds))) := by
  rw [chatPOST_eq_chatCore store req invoke msgs last m hm hl hc hne, chatCore_eq, hinv]
  dsimp only
  refine ⟨rfl, rfl, ?_, ?_⟩
  · intro s hs
    refine ⟨resolveSession store req, mapGet_mapSet_same _ _ _, ?_⟩
    rw [resolveSession_chatHistory]
    unfold oldHistory
    rw [hs]
  · intro hnone
    rw [mapGet_mapSet_same]
    unfold resolveSession
    rw [hnone]

/-- C10 (witness): a failing agent on a first request from `"u1"`: HTTP 500
and the new session stored with empty history. -/
theorem c10_agent_error_witness :
    (chatPOST [] ⟨some [⟨"user", some "hi"⟩], "u1", []⟩
        (fun _ _ => .error "boom")).outcome =
      .err 500 ("There was an error processing your request: " ++ "boom") ∧
    mapGet (chatPOST [] ⟨some [⟨"user", some "hi"⟩], "u1", []⟩
        (fun _ _ => .error "boom")).store "u1" =
      some (createNewUserSession (mkMetadataFilter [])) := by
  have h := c10_agent_error [] ⟨some [⟨"user", some "hi"⟩], "u1", []⟩ "boom"
    (fun _ _ => .error "boom") (fun _ _ => rfl)
    [⟨"user", some "hi"⟩] ⟨"user", some "hi"⟩ "hi" rfl rfl rfl (by decide)
  exact ⟨h.1, h.2.2.2 rfl⟩

end BonicChat
